import Mathlib

/-!
# Verification of the WindowHub Window Embedding Core

Shallow embedding of `src/src-tauri/src/lib.rs` (the Tauri backend of
WindowHub).  The Win32 layer is modelled as an explicit system state:

* `SysState.windows` — association list from window handle (`isize`,
  modelled as `Int`) to the window's observable attributes.  A handle
  absent from the list is a dead/invalid handle (`IsWindow` = false).
  Win32 calls on dead handles follow the documented Win32 behaviour:
  `GetWindowLongW` returns 0, `GetClassNameW` yields the empty string,
  `GetWindowThreadProcessId` yields 0, `GetWindowRect` leaves the output
  `RECT` at its zero default, and the `Set*` calls have no state effect.
* `SysState.registry` — the `ORIGINAL_STYLES : Mutex<Vec<(isize, i32, i32,
  RECT)>>` global (lib.rs line 23).  Style and exstyle words are kept as
  their 32-bit bit patterns (`Nat`); the `i32 ↔ u32` casts in the source
  are bit-pattern preserving, so no separate signedness modelling is
  needed.
* Every operation returns an `Outcome`: the Rust `Result` value, the
  post-state, and the ordered trace of native calls issued (`Event`),
  so that claims about which calls are (not) made are provable.

Modelling notes, all explicit and local:
* the Tauri host frame (`app.get_webview_window("main")`) is assumed
  present (`SysState.hostFrame`); the `NoHostFrame` error constructor is
  kept but never produced by the model;
* `SetParent` keeps the stored screen rectangle (any on-screen shift it
  causes is irrelevant to the claims: `release_window` overwrites the
  rectangle explicitly);
* `ScreenToClient` subtracts the client origin of the target window; a
  window's client origin keeps a fixed offset (`clientOff`) from its
  top-left corner;
* `AttachThreadInput`'s success is an environment oracle
  (`SysState.attachOk`), consulted only when the call is issued;
* `EnumChildWindows` is modelled as a depth-first traversal of the
  parent relation recorded in the state.
-/

namespace WindowHub

/-- Win32 `RECT` (left/top/right/bottom), `i32` fields modelled as `Int`. -/
structure Rect where
  left : Int
  top : Int
  right : Int
  bottom : Int
deriving DecidableEq, Repr

/-- Win32 `POINT`. -/
structure Point where
  x : Int
  y : Int
deriving DecidableEq, Repr

/-- Observable attributes of a live window, as queried through the Win32
facade used by lib.rs. `style`/`exstyle` are 32-bit bit patterns. -/
structure Window where
  pid : Nat
  tid : Nat
  className : String
  style : Nat
  exstyle : Nat
  rect : Rect
  parent : Option Int
  visible : Bool
  clientOff : Point
deriving DecidableEq, Repr

/-- One saved entry of `ORIGINAL_STYLES`: `(isize, i32, i32, RECT)` =
(handle, style, exstyle, screen rect). -/
abbrev RegEntry := Int × Nat × Nat × Rect

/-- The whole mutable world the Rust commands act on. -/
structure SysState where
  windows : List (Int × Window)
  registry : List RegEntry
  hostFrame : Int
  selfPid : Nat
  curTid : Nat
  attachOk : Bool
deriving DecidableEq, Repr

/-- The native calls lib.rs can issue, recorded as a trace. -/
inductive Event where
  | setStyle (h : Int) (v : Nat)
  | setExStyle (h : Int) (v : Nat)
  | setParentE (h : Int) (p : Option Int)
  | setPos (h : Int) (x y w ht : Int) (flags : Nat)
  | attachInput (src dst : Nat) (attach : Bool)
  | setFocus (h : Int)
  | setActive (h : Int)
  | showCmd (h : Int) (cmd : Nat)
  | setForeground (h : Int)
  | postClose (h : Int)
deriving DecidableEq, Repr

/-- Stable error kinds of the embed gate.  `embed_window` and
`can_embed_window` return `Err(String)` in the source; the two distinct
`return Err` sites correspond to `selfProcess` (lib.rs 131/422) and
`forbiddenClass` (lib.rs 136/427).  `noHostFrame` models the
`ok_or("无法获取主窗口")` site (lib.rs 139), never produced here because the
model assumes the host frame exists. -/
inductive EmbedErr where
  | selfProcess
  | forbiddenClass (c : String)
  | noHostFrame
deriving DecidableEq, Repr

/-- Result of a command: the Rust return value, post-state, call trace. -/
structure Outcome where
  res : Except EmbedErr Bool
  state : SysState
  events : List Event
deriving Repr

/-! ## Win32 style and flag constants (numeric values from WinUser.h) -/

def WS_BORDER : Nat := 0x00800000
def WS_DLGFRAME : Nat := 0x00400000
def WS_CAPTION : Nat := 0x00C00000
def WS_THICKFRAME : Nat := 0x00040000
def WS_MINIMIZEBOX : Nat := 0x00020000
def WS_MAXIMIZEBOX : Nat := 0x00010000
def WS_SYSMENU : Nat := 0x00080000
def WS_POPUP : Nat := 0x80000000
def WS_CHILD : Nat := 0x40000000
def WS_VISIBLE : Nat := 0x10000000
def WS_CLIPCHILDREN : Nat := 0x02000000
def WS_OVERLAPPEDWINDOW : Nat := 0x00CF0000

def SWP_NOSIZE : Nat := 0x0001
def SWP_NOMOVE : Nat := 0x0002
def SWP_NOZORDER : Nat := 0x0004
def SWP_NOACTIVATE : Nat := 0x0010
def SWP_FRAMECHANGED : Nat := 0x0020
def SWP_SHOWWINDOW : Nat := 0x0040

def SW_HIDE : Nat := 0
def SW_SHOW : Nat := 5
def SW_RESTORE : Nat := 9

/-- The decoration bits stripped by `embed_window` (lib.rs 160-161). -/
def stripMask : Nat :=
  WS_CAPTION ||| WS_THICKFRAME ||| WS_MINIMIZEBOX ||| WS_MAXIMIZEBOX |||
  WS_SYSMENU ||| WS_POPUP ||| WS_BORDER ||| WS_DLGFRAME

/-- `(original_style as u32 & !(strip mask)) | WS_CHILD | WS_VISIBLE`
(lib.rs 160-162); `!` is 32-bit complement. -/
def newStyle (orig : Nat) : Nat :=
  (orig &&& (0xFFFFFFFF ^^^ stripMask)) ||| WS_CHILD ||| WS_VISIBLE

/-! ## Primitive state access -/

/-- First association for a handle (the model's `IsWindow`-visible record). -/
def findW : List (Int × Window) → Int → Option Window
  | [], _ => none
  | p :: t, h => if p.1 = h then some p.2 else findW t h

/-- Apply `f` to every record stored under handle `h`. -/
def updW : List (Int × Window) → Int → (Window → Window) → List (Int × Window)
  | [], _, _ => []
  | p :: t, h, f => (if p.1 = h then (p.1, f p.2) else p) :: updW t h f

def lookupW (s : SysState) (h : Int) : Option Window :=
  findW s.windows h

def updateW (s : SysState) (h : Int) (f : Window → Window) : SysState :=
  { s with windows := updW s.windows h f }

/-- `IsWindow` (lib.rs 221, 275, 331). -/
def isWindow (s : SysState) (h : Int) : Bool :=
  (lookupW s h).isSome

/-- `GetWindowThreadProcessId(h, Some(&mut pid))`: dead handle leaves the
initial 0 in place (lib.rs 44-45). -/
def pidOf (s : SysState) (h : Int) : Nat :=
  match lookupW s h with
  | some w => w.pid
  | none => 0

/-- `GetWindowThreadProcessId(h, None)`: returns the thread id, 0 if dead. -/
def tidOf (s : SysState) (h : Int) : Nat :=
  match lookupW s h with
  | some w => w.tid
  | none => 0

/-- `get_class_name` (lib.rs 52-56): empty string for a dead handle. -/
def classOf (s : SysState) (h : Int) : String :=
  match lookupW s h with
  | some w => w.className
  | none => ""

/-- `GetWindowLongW(h, GWL_STYLE)`: 0 for a dead handle. -/
def styleOf (s : SysState) (h : Int) : Nat :=
  match lookupW s h with
  | some w => w.style
  | none => 0

/-- `GetWindowLongW(h, GWL_EXSTYLE)`: 0 for a dead handle. -/
def exstyleOf (s : SysState) (h : Int) : Nat :=
  match lookupW s h with
  | some w => w.exstyle
  | none => 0

/-- `GetWindowRect`: on failure the output keeps `RECT::default()`. -/
def rectOf (s : SysState) (h : Int) : Rect :=
  match lookupW s h with
  | some w => w.rect
  | none => ⟨0, 0, 0, 0⟩

/-- `GetParent` as an option: `none` both for a top-level and a dead window. -/
def parentOf (s : SysState) (h : Int) : Option Int :=
  match lookupW s h with
  | some w => w.parent
  | none => none

/-- Screen position of a window's client (0,0); `ScreenToClient` on a dead
handle leaves the point unchanged, i.e. origin (0,0). -/
def clientOriginOf (s : SysState) (h : Int) : Point :=
  match lookupW s h with
  | some w => ⟨w.rect.left + w.clientOff.x, w.rect.top + w.clientOff.y⟩
  | none => ⟨0, 0⟩

/-- State effect of `SetWindowPos` (coordinates are parent-client for a
child window and screen otherwise; `SWP_NOMOVE`/`SWP_NOSIZE` keep the
current position/size; `SWP_SHOWWINDOW` makes the window visible). -/
def setPosS (s : SysState) (h : Int) (x y w ht : Int) (flags : Nat) : SysState :=
  updateW s h (fun win =>
    let base : Point :=
      match win.parent with
      | some p => clientOriginOf s p
      | none => ⟨0, 0⟩
    let vis := if flags &&& SWP_SHOWWINDOW ≠ 0 then true else win.visible
    let nl := if flags &&& SWP_NOMOVE ≠ 0 then win.rect.left else base.x + x
    let nt := if flags &&& SWP_NOMOVE ≠ 0 then win.rect.top else base.y + y
    let nw := if flags &&& SWP_NOSIZE ≠ 0 then win.rect.right - win.rect.left else w
    let nh := if flags &&& SWP_NOSIZE ≠ 0 then win.rect.bottom - win.rect.top else ht
    { win with visible := vis, rect := ⟨nl, nt, nl + nw, nt + nh⟩ })

/-! ## Registry (`ORIGINAL_STYLES`) primitives -/

/-- `styles.iter().any(|(h, _, _, _)| *h == target_hwnd)` (lib.rs 155). -/
def hasReg : List RegEntry → Int → Bool
  | [], _ => false
  | e :: t, h => e.1 == h || hasReg t h

/-- `styles.iter().find(|(h, _, _, _)| *h == target_hwnd)` (lib.rs 194). -/
def findReg : List RegEntry → Int → Option (Nat × Nat × Rect)
  | [], _ => none
  | e :: t, h => if e.1 = h then some e.2 else findReg t h

/-! ## Classifier -/

/-- `pat` occurs at the head of `s`. -/
def matchAt : List Char → List Char → Bool
  | [], _ => true
  | _ :: _, [] => false
  | c :: cs, d :: ds => c == d && matchAt cs ds

/-- `pat` occurs somewhere in `s` (Rust `str::contains` with a literal
pattern: substring containment). -/
def occursIn : List Char → List Char → Bool
  | pat, [] => matchAt pat []
  | pat, d :: ds => matchAt pat (d :: ds) || occursIn pat ds

/-- Substring containment on strings. -/
def strContainsSub (s pat : String) : Bool :=
  occursIn pat.data s.data

/-- The denylist of `is_dangerous_window` (lib.rs 62-71), source order. -/
def dangerous_classes : List String :=
  ["CabinetWClass", "ExplorerWClass", "Progman", "WorkerW",
   "Shell_TrayWnd", "Shell_SecondaryTrayWnd", "TaskManagerWindow",
   "Windows.UI.Core.CoreWindow"]

/-- `is_dangerous_window` (lib.rs 60-73):
`dangerous.iter().any(|d| class_name.contains(d))`. -/
def is_dangerous_window (class_name : String) : Bool :=
  dangerous_classes.any (fun d => strContainsSub class_name d)

/-- `is_self_window` (lib.rs 42-48). -/
def is_self_window (s : SysState) (h : Int) : Bool :=
  pidOf s h == s.selfPid

/-- `can_embed_window` (lib.rs 418-433). -/
def can_embed_window (s : SysState) (h : Int) : Except EmbedErr Bool :=
  if is_self_window s h then .error .selfProcess
  else
    let cls := classOf s h
    if is_dangerous_window cls then .error (.forbiddenClass cls)
    else .ok true

/-! ## Child enumeration and focus target -/

/-- Handles whose stored parent is `h`, in state order. -/
def childKeys : List (Int × Window) → Int → List Int
  | [], _ => []
  | p :: t, h => if p.2.parent = some h then p.1 :: childKeys t h else childKeys t h

def childrenOf (s : SysState) (h : Int) : List Int :=
  childKeys s.windows h

/-- Fuel-bounded depth-first descendant enumeration (`EnumChildWindows`
visits all descendants). -/
def descendantsAux (s : SysState) : Nat → Int → List Int
  | 0, _ => []
  | n + 1, h =>
    (childrenOf s h).foldr (fun c acc => c :: descendantsAux s n c ++ acc) []

def descendants (s : SysState) (h : Int) : List Int :=
  descendantsAux s s.windows.length h

/-- `find_render_window` (lib.rs 251-266): first descendant whose class
equals `"Chrome_RenderWidgetHostHWND"`. -/
def find_render_window (s : SysState) (h : Int) : Option Int :=
  (descendants s h).find? (fun c => classOf s c == "Chrome_RenderWidgetHostHWND")

/-! ## Commands -/

def nomoveFlags : Nat := SWP_NOMOVE ||| SWP_NOSIZE ||| SWP_SHOWWINDOW

/-- `activate_window` (lib.rs 268-311).  The delayed detach running on the
spawned thread is recorded at the end of the trace (it is issued exactly
when the attach succeeded). -/
def activate_window (s : SysState) (h : Int) : Outcome :=
  if isWindow s h = false then ⟨.ok false, s, []⟩
  else
    let idc := s.curTid
    let idt := tidOf s h
    let attached := if idc ≠ idt then s.attachOk else false
    let ev1 : List Event := if idc ≠ idt then [.attachInput idc idt true] else []
    let s1 := setPosS s h 0 0 0 0 nomoveFlags
    let evFocus : List Event :=
      match find_render_window s1 h with
      | some r => [.setActive r, .setFocus r]
      | none => [.setActive h, .setFocus h]
    let evDetach : List Event := if attached then [.attachInput idc idt false] else []
    ⟨.ok true, s1,
      ev1 ++ [.setPos h 0 0 0 0 nomoveFlags] ++ evFocus ++ evDetach⟩

/-- Step 1 of `embed_window` (lib.rs 143-146): ensure the host frame
carries `WS_CLIPCHILDREN`, setting it when absent. -/
def embClip (s : SysState) : SysState × List Event :=
  let pstyle := styleOf s s.hostFrame
  if pstyle &&& WS_CLIPCHILDREN = 0 then
    (updateW s s.hostFrame (fun w => { w with style := pstyle ||| WS_CLIPCHILDREN }),
     [.setStyle s.hostFrame (pstyle ||| WS_CLIPCHILDREN)])
  else (s, [])

/-- Step 3 of `embed_window` (lib.rs 153-158): push the captured
OriginalState unless an entry for the handle already exists. -/
def embInsert (s : SysState) (h : Int) : SysState :=
  if hasReg s.registry h then s
  else { s with registry := s.registry ++ [(h, styleOf s h, exstyleOf s h, rectOf s h)] }

/-- `embed_window` (lib.rs 126-176).  The host frame is
`s.hostFrame`; the registry push is guarded by `hasReg` exactly as in the
source, while the restyle/reparent/raise/activate sequence is not. -/
def embed_window (s : SysState) (h : Int) : Outcome :=
  if is_self_window s h then ⟨.error .selfProcess, s, []⟩
  else
    let cls := classOf s h
    if is_dangerous_window cls then ⟨.error (.forbiddenClass cls), s, []⟩
    else
      let parent := s.hostFrame
      let s1 := (embClip s).1
      let ev1 := (embClip s).2
      let s2 := embInsert s1 h
      let nst := newStyle (styleOf s1 h)
      let s3 := updateW s2 h (fun w => { w with style := nst })
      let s4 := updateW s3 h (fun w => { w with parent := some parent })
      let s5 := setPosS s4 h 0 0 0 0 nomoveFlags
      let a := activate_window s5 h
      ⟨.ok true, a.state,
        ev1 ++ [.setStyle h nst, .setParentE h (some parent),
                .setPos h 0 0 0 0 nomoveFlags] ++ a.events⟩

/-- `release_window` (lib.rs 178-212).  Note: the source only `find`s the
registry entry; it never removes it. -/
def release_window (s : SysState) (h : Int) : Outcome :=
  let idc := s.curTid
  let idt := tidOf s h
  let ev1 : List Event := if idc ≠ idt then [.attachInput idc idt false] else []
  let s1 := updateW s h (fun w => { w with parent := none })
  match findReg s1.registry h with
  | some (ost, oex, rc) =>
    let s2 := updateW s1 h (fun w => { w with style := ost })
    let s3 := updateW s2 h (fun w => { w with exstyle := oex })
    let wd := rc.right - rc.left
    let ht := rc.bottom - rc.top
    let s4 := setPosS s3 h rc.left rc.top wd ht (SWP_FRAMECHANGED ||| SWP_SHOWWINDOW)
    let s5 := updateW s4 h (fun w => { w with visible := true })
    ⟨.ok true, s5,
      ev1 ++ [.setParentE h none, .setStyle h ost, .setExStyle h oex,
              .setPos h rc.left rc.top wd ht (SWP_FRAMECHANGED ||| SWP_SHOWWINDOW),
              .showCmd h SW_RESTORE, .setForeground h]⟩
  | none =>
    let dst := WS_OVERLAPPEDWINDOW ||| WS_VISIBLE
    let s2 := updateW s1 h (fun w => { w with style := dst })
    let s3 := setPosS s2 h 100 100 800 600 (SWP_FRAMECHANGED ||| SWP_SHOWWINDOW)
    let s4 := updateW s3 h (fun w => { w with visible := true })
    ⟨.ok true, s4,
      ev1 ++ [.setParentE h none, .setStyle h dst,
              .setPos h 100 100 800 600 (SWP_FRAMECHANGED ||| SWP_SHOWWINDOW),
              .showCmd h SW_RESTORE, .setForeground h]⟩

def updFlags : Nat := SWP_NOZORDER ||| SWP_NOACTIVATE ||| SWP_SHOWWINDOW

/-- `update_window_rect` (lib.rs 214-247). -/
def update_window_rect (s : SysState) (h x y width height : Int) : Outcome :=
  if isWindow s h = false then ⟨.ok false, s, []⟩
  else
    let rc := rectOf s h
    let skip : Bool :=
      match parentOf s h with
      | some p =>
        let o := clientOriginOf s p
        decide ((rc.left - o.x - x).natAbs ≤ 1) &&
        decide ((rc.top - o.y - y).natAbs ≤ 1) &&
        decide ((rc.right - rc.left - width).natAbs ≤ 1) &&
        decide ((rc.bottom - rc.top - height).natAbs ≤ 1)
      | none => false
    if skip then ⟨.ok true, s, []⟩
    else
      ⟨.ok true, setPosS s h x y width height updFlags,
        [.setPos h x y width height updFlags]⟩

/-- `close_target_window` (lib.rs 313-324): release then `PostMessageW(WM_CLOSE)`. -/
def close_target_window (s : SysState) (h : Int) : Outcome :=
  let r := release_window s h
  ⟨.ok true, r.state, r.events ++ [.postClose h]⟩

/-- `is_window_valid` (lib.rs 326-335). -/
def is_window_valid (s : SysState) (h : Int) : Bool :=
  isWindow s h

/-- `hide_window` (lib.rs 436-446): `ShowWindow(SW_HIDE)`, returns true. -/
def hide_window (s : SysState) (h : Int) : Bool × SysState × List Event :=
  (true, updateW s h (fun w => { w with visible := false }), [.showCmd h SW_HIDE])

/-- `show_window` (lib.rs 449-459): `ShowWindow(SW_SHOW)`, returns true. -/
def show_window (s : SysState) (h : Int) : Bool × SysState × List Event :=
  (true, updateW s h (fun w => { w with visible := true }), [.showCmd h SW_SHOW])

/-! ## Operation language (for the registry invariant) -/

inductive Op where
  | embed (h : Int)
  | release (h : Int)
  | updateRect (h x y w ht : Int)
  | activate (h : Int)
  | close (h : Int)
  | hideW (h : Int)
  | showW (h : Int)
deriving DecidableEq, Repr

def step (s : SysState) : Op → SysState
  | .embed h => (embed_window s h).state
  | .release h => (release_window s h).state
  | .updateRect h x y w ht => (update_window_rect s h x y w ht).state
  | .activate h => (activate_window s h).state
  | .close h => (close_target_window s h).state
  | .hideW h => (hide_window s h).2.1
  | .showW h => (show_window s h).2.1

def runOps (s : SysState) (ops : List Op) : SysState :=
  ops.foldl step s

/-- Keys of the registry. -/
def regKeys (s : SysState) : List Int :=
  s.registry.map (·.1)

/-! ## Concrete states used by witnesses and counterexamples -/

/-- A host frame window (the Tauri main window). -/
def wHost : Window :=
  { pid := 10, tid := 1, className := "TauriHost", style := 0x16CF0000,
    exstyle := 0, rect := ⟨0, 0, 1280, 800⟩, parent := none, visible := true,
    clientOff := ⟨0, 0⟩ }

/-- An eligible foreign top-level window (a Notepad-like window). -/
def wNote : Window :=
  { pid := 7, tid := 3, className := "Notepad", style := 0x14CF0000,
    exstyle := 0x100, rect := ⟨50, 60, 900, 720⟩, parent := none, visible := true,
    clientOff := ⟨8, 31⟩ }

/-- A render-surface child window of a browser-style app. -/
def wChrome : Window :=
  { pid := 7, tid := 3, className := "Chrome_RenderWidgetHostHWND", style := 0,
    exstyle := 0, rect := ⟨0, 0, 10, 10⟩, parent := some 5, visible := true,
    clientOff := ⟨0, 0⟩ }

/-- Base state: live host (handle 1) and foreign window (handle 5),
empty registry, host process id 10, UI thread 1. -/
def csW : SysState :=
  { windows := [(1, wHost), (5, wNote)], registry := [],
    hostFrame := 1, selfPid := 10, curTid := 1, attachOk := true }

/-- Base state with a registry entry already stored for handle 5. -/
def csReg : SysState :=
  { csW with registry := [(5, 0x14CF0000, 0x100, ⟨50, 60, 900, 720⟩)] }

/-- Base state extended with a Chrome render child (handle 9) under 5. -/
def csChrome : SysState :=
  { csW with windows := csW.windows ++ [(9, wChrome)] }

/-- State containing only the live host; handle 7 is dead. -/
def csDead : SysState :=
  { windows := [(1, wHost)], registry := [],
    hostFrame := 1, selfPid := 10, curTid := 1, attachOk := true }

end WindowHub

namespace WindowHub

/-! ## Association-list lemmas -/

theorem findW_updW (l : List (Int × Window)) (k h2 : Int) (f : Window → Window) :
    findW (updW l k f) h2 = if h2 = k then (findW l k).map f else findW l h2 := by
  induction l with
  | nil => simp [findW, updW]
  | cons p t ih =>
    simp only [updW, findW]
    by_cases hpk : p.1 = k
    · rw [hpk]
      by_cases h2k : h2 = k
      · subst h2k
        simp [findW, hpk]
      · simp [findW, Ne.symm h2k, h2k, ih]
    · by_cases h2k : h2 = k
      · subst h2k
        simp [findW, hpk, ih]
      · simp [findW, hpk, h2k, ih]

theorem lookupW_updateW (s : SysState) (k : Int) (f : Window → Window) (h2 : Int) :
    lookupW (updateW s k f) h2 = if h2 = k then (lookupW s k).map f else lookupW s h2 :=
  findW_updW s.windows k h2 f

@[simp] theorem registry_updateW (s : SysState) (k : Int) (f : Window → Window) :
    (updateW s k f).registry = s.registry := rfl

@[simp] theorem hostFrame_updateW (s : SysState) (k : Int) (f : Window → Window) :
    (updateW s k f).hostFrame = s.hostFrame := rfl

@[simp] theorem selfPid_updateW (s : SysState) (k : Int) (f : Window → Window) :
    (updateW s k f).selfPid = s.selfPid := rfl

@[simp] theorem curTid_updateW (s : SysState) (k : Int) (f : Window → Window) :
    (updateW s k f).curTid = s.curTid := rfl

@[simp] theorem attachOk_updateW (s : SysState) (k : Int) (f : Window → Window) :
    (updateW s k f).attachOk = s.attachOk := rfl

@[simp] theorem registry_setPosS (s : SysState) (k x y w ht : Int) (fl : Nat) :
    (setPosS s k x y w ht fl).registry = s.registry := rfl

@[simp] theorem lookupW_withRegistry (s : SysState) (r : List RegEntry) (h : Int) :
    lookupW { s with registry := r } h = lookupW s h := rfl

/-! ## Registry is only written inside the guarded push of embed -/

theorem activate_state_registry (s : SysState) (h : Int) :
    (activate_window s h).state.registry = s.registry := by
  unfold activate_window
  split <;> rfl

theorem release_state_registry (s : SysState) (h : Int) :
    (release_window s h).state.registry = s.registry := by
  simp only [release_window]
  split <;> rfl

theorem update_rect_state_registry (s : SysState) (h x y w ht : Int) :
    (update_window_rect s h x y w ht).state.registry = s.registry := by
  simp only [update_window_rect]
  split
  · rfl
  · split <;> rfl

theorem close_state_registry (s : SysState) (h : Int) :
    (close_target_window s h).state.registry = s.registry :=
  release_state_registry s h

/-! ## C1 -/

/-- C1: the claim says that after `release_window(h)` the registry no longer
contains an entry for h.  The source (lib.rs 193-199) only reads the entry
with `iter().find`; nothing removes it: releasing handle 5 from a state whose
registry holds an entry for 5 leaves that entry in place. -/
theorem c1_counterexample :
    hasReg (release_window csReg 5).state.registry 5 = true ∧
    (release_window csReg 5).res = .ok true := by
  exact ⟨rfl, rfl⟩

/-- C1 (amended): `release_window` reads the saved OriginalState record to
restore style, exstyle and rectangle, but never removes it — the registry
after any `release_window` call is exactly the registry before it, so the
handle is still treated as embedded by the registry. -/
theorem c1_release_leaves_registry (s : SysState) (h : Int) :
    (release_window s h).state.registry = s.registry :=
  release_state_registry s h

/-! ## C6 -/

/-- C6: on a dead handle both `update_window_rect` (lib.rs 221-223) and
`activate_window` (lib.rs 275-277) return the successful result `Ok(false)`
(the Gone signal), leave the state untouched, and issue no native call at
all (no move/resize, no focus, no input attachment). -/
theorem c6_gone_is_success (s : SysState) (h x y w ht : Int)
    (hdead : isWindow s h = false) :
    update_window_rect s h x y w ht = ⟨.ok false, s, []⟩ ∧
    activate_window s h = ⟨.ok false, s, []⟩ := by
  unfold update_window_rect activate_window
  rw [hdead]
  exact ⟨rfl, rfl⟩

/-- C6 witness: handle 7 is dead in `csDead`. -/
theorem c6_witness :
    isWindow csDead 7 = false ∧
    update_window_rect csDead 7 0 40 1200 700 = ⟨.ok false, csDead, []⟩ ∧
    activate_window csDead 7 = ⟨.ok false, csDead, []⟩ := by
  refine ⟨rfl, ?_, ?_⟩
  · exact (c6_gone_is_success csDead 7 0 40 1200 700 rfl).1
  · exact (c6_gone_is_success csDead 7 0 40 1200 700 rfl).2

/-! ## Substring containment -/

theorem matchAt_iff (p s : List Char) : matchAt p s = true ↔ ∃ r, s = p ++ r := by
  induction p generalizing s with
  | nil => simp [matchAt]
  | cons c cs ih =>
    cases s with
    | nil => simp [matchAt]
    | cons d ds =>
      simp only [matchAt, Bool.and_eq_true, beq_iff_eq, ih, List.cons_append,
        List.cons.injEq]
      constructor
      · rintro ⟨hcd, r, hr⟩
        exact ⟨r, hcd.symm, hr⟩
      · rintro ⟨r, hdc, hr⟩
        exact ⟨hdc.symm, r, hr⟩

theorem occursIn_iff (p s : List Char) :
    occursIn p s = true ↔ ∃ l r, s = l ++ p ++ r := by
  induction s with
  | nil =>
    simp only [occursIn, matchAt_iff]
    constructor
    · rintro ⟨r, hr⟩
      exact ⟨[], r, by simpa using hr⟩
    · rintro ⟨l, r, hr⟩
      rcases List.append_eq_nil.mp (List.append_eq_nil.mp hr.symm).1 with ⟨h1, h2⟩
      exact ⟨[], by simp [h2]⟩
  | cons d ds ih =>
    simp only [occursIn, Bool.or_eq_true, matchAt_iff, ih]
    constructor
    · rintro (⟨r, hr⟩ | ⟨l, r, hr⟩)
      · exact ⟨[], r, by simpa using hr⟩
      · exact ⟨d :: l, r, by simp [hr]⟩
    · rintro ⟨l, r, hr⟩
      cases l with
      | nil => exact Or.inl ⟨r, by simpa using hr⟩
      | cons e l2 =>
        right
        refine ⟨l2, r, ?_⟩
        have := (List.cons.injEq d ds e (l2 ++ p ++ r)).mp (by simpa using hr)
        exact this.2

/-! ## C5 -/

/-- C5: `embed_window` and `can_embed_window` implement the same eligibility
gate: `SelfProcess` exactly when the window's process is the host process
(lib.rs 42-48, 131, 422), `ForbiddenClass` exactly when the class name
contains a denylist entry as a substring (lib.rs 60-73), and acceptance
otherwise. -/
theorem c5_gate (s : SysState) (h : Int) :
    (embed_window s h).res = can_embed_window s h ∧
    (can_embed_window s h = .error .selfProcess ↔ pidOf s h = s.selfPid) ∧
    (∀ c, can_embed_window s h = .error (.forbiddenClass c) → c = classOf s h) ∧
    (can_embed_window s h = .error (.forbiddenClass (classOf s h)) ↔
      (pidOf s h ≠ s.selfPid ∧ is_dangerous_window (classOf s h) = true)) ∧
    (can_embed_window s h = .ok true ↔
      (pidOf s h ≠ s.selfPid ∧ is_dangerous_window (classOf s h) = false)) ∧
    (∀ cn : String, is_dangerous_window cn = true ↔
      ∃ d ∈ dangerous_classes, ∃ l r, cn.data = l ++ d.data ++ r) := by
  refine ⟨?_, ?_, ?_, ?_, ?_, ?_⟩
  · simp only [embed_window, can_embed_window]
    split
    · rfl
    · split <;> rfl
  · unfold can_embed_window is_self_window
    by_cases hp : pidOf s h = s.selfPid <;>
      by_cases hd : is_dangerous_window (classOf s h) = true <;>
        simp_all
  · intro c
    unfold can_embed_window is_self_window
    by_cases hp : pidOf s h = s.selfPid <;>
      by_cases hd : is_dangerous_window (classOf s h) = true <;>
        simp_all
  · unfold can_embed_window is_self_window
    by_cases hp : pidOf s h = s.selfPid <;>
      by_cases hd : is_dangerous_window (classOf s h) = true <;>
        simp_all
  · unfold can_embed_window is_self_window
    by_cases hp : pidOf s h = s.selfPid <;>
      by_cases hd : is_dangerous_window (classOf s h) = true <;>
        simp_all
  · intro cn
    simp [is_dangerous_window, strContainsSub, List.any_eq_true, occursIn_iff]

/-! ## Registry shape after embed -/

theorem hasReg_append_self (l : List RegEntry) (h : Int) (st ex : Nat) (rc : Rect) :
    hasReg (l ++ [(h, st, ex, rc)]) h = true := by
  induction l with
  | nil => simp [hasReg]
  | cons q t ih => simp [hasReg, ih]

@[simp] theorem embClip_registry (s : SysState) :
    (embClip s).1.registry = s.registry := by
  simp only [embClip]
  split <;> rfl

@[simp] theorem embClip_hostFrame (s : SysState) :
    (embClip s).1.hostFrame = s.hostFrame := by
  simp only [embClip]
  split <;> rfl

@[simp] theorem embClip_selfPid (s : SysState) :
    (embClip s).1.selfPid = s.selfPid := by
  simp only [embClip]
  split <;> rfl

@[simp] theorem embClip_curTid (s : SysState) :
    (embClip s).1.curTid = s.curTid := by
  simp only [embClip]
  split <;> rfl

@[simp] theorem embClip_attachOk (s : SysState) :
    (embClip s).1.attachOk = s.attachOk := by
  simp only [embClip]
  split <;> rfl

theorem lookupW_embClip (s : SysState) (h : Int) (hh : h ≠ s.hostFrame) :
    lookupW (embClip s).1 h = lookupW s h := by
  simp only [embClip]
  split
  · simp [lookupW_updateW, hh]
  · rfl

@[simp] theorem lookupW_embInsert (s : SysState) (h2 h3 : Int) :
    lookupW (embInsert s h2) h3 = lookupW s h3 := by
  unfold embInsert
  split <;> rfl

@[simp] theorem embInsert_hostFrame (s : SysState) (h : Int) :
    (embInsert s h).hostFrame = s.hostFrame := by
  unfold embInsert
  split <;> rfl

@[simp] theorem embInsert_selfPid (s : SysState) (h : Int) :
    (embInsert s h).selfPid = s.selfPid := by
  unfold embInsert
  split <;> rfl

@[simp] theorem embInsert_curTid (s : SysState) (h : Int) :
    (embInsert s h).curTid = s.curTid := by
  unfold embInsert
  split <;> rfl

@[simp] theorem embInsert_attachOk (s : SysState) (h : Int) :
    (embInsert s h).attachOk = s.attachOk := by
  unfold embInsert
  split <;> rfl

theorem embInsert_registry (s : SysState) (h : Int) :
    (embInsert s h).registry =
      if hasReg s.registry h then s.registry
      else s.registry ++ [(h, styleOf s h, exstyleOf s h, rectOf s h)] := by
  unfold embInsert
  split <;> simp_all

/-- Under a passing eligibility gate, `embed_window` either finds the handle
already registered (and leaves the registry alone) or appends one entry for
it; in both cases the handle is registered afterwards. -/
theorem embed_hasReg_after (s : SysState) (h : Int)
    (hself : is_self_window s h = false)
    (hcls : is_dangerous_window (classOf s h) = false) :
    hasReg (embed_window s h).state.registry h = true := by
  simp only [embed_window, hself, Bool.false_eq_true, if_false, hcls]
  rw [activate_state_registry]
  simp only [registry_setPosS, registry_updateW, embInsert_registry,
    embClip_registry]
  split
  · rename_i hhas
    exact hhas
  · exact hasReg_append_self _ h _ _ _

theorem embed_res_of_pass (s : SysState) (h : Int)
    (hself : is_self_window s h = false)
    (hcls : is_dangerous_window (classOf s h) = false) :
    (embed_window s h).res = .ok true := by
  simp only [embed_window, hself, Bool.false_eq_true, if_false, hcls]

/-- Registry shape used for the registry key invariant: any `embed_window`
call either keeps the registry keys or appends the (previously absent)
handle at the end. -/
theorem embed_regKeys_cases (s : SysState) (h : Int) :
    regKeys (embed_window s h).state = regKeys s ∨
    (hasReg s.registry h = false ∧
      regKeys (embed_window s h).state = regKeys s ++ [h]) := by
  simp only [embed_window]
  split
  · exact Or.inl rfl
  · split
    · exact Or.inl rfl
    · rw [regKeys, activate_state_registry]
      simp only [registry_setPosS, registry_updateW, embInsert_registry,
        embClip_registry]
      split
      · exact Or.inl rfl
      · rename_i hhas
        refine Or.inr ⟨by simpa using hhas, ?_⟩
        simp [regKeys]

/-! ## C2 -/

/-- C2: the claim says `embed_window` fails with an error on every dead
handle.  The source never calls `IsWindow` in `embed_window`: in `csDead`
handle 7 is dead, yet embed returns `Ok(true)` and a registry entry for 7 is
inserted. -/
theorem c2_counterexample :
    isWindow csDead 7 = false ∧
    (embed_window csDead 7).res = .ok true ∧
    hasReg (embed_window csDead 7).state.registry 7 = true := by
  exact ⟨rfl, rfl, rfl⟩

/-- C2 (amended): `embed_window` checks only the self-process and
forbidden-class gates, never validity.  A dead handle reads as process id 0
and empty class name, so (in a host process with a nonzero pid) it passes
the gate and embed proceeds: it returns `Ok(true)` and inserts a registry
entry for the handle instead of failing. -/
theorem c2_embed_ignores_validity (s : SysState) (h : Int)
    (hdead : isWindow s h = false) (hpid : s.selfPid ≠ 0) :
    (embed_window s h).res = .ok true ∧
    hasReg (embed_window s h).state.registry h = true := by
  have hnone : lookupW s h = none := by
    cases hl : lookupW s h with
    | none => rfl
    | some w =>
      rw [isWindow, hl] at hdead
      simp at hdead
  have hself : is_self_window s h = false := by
    simp [is_self_window, pidOf, hnone]
    omega
  have hcls : is_dangerous_window (classOf s h) = false := by
    simp [classOf, hnone]
    rfl
  exact ⟨embed_res_of_pass s h hself hcls, embed_hasReg_after s h hself hcls⟩

/-- C2 witness for the amended claim, at the concrete dead handle 7. -/
theorem c2_witness :
    isWindow csDead 7 = false ∧ csDead.selfPid ≠ 0 ∧
    ((embed_window csDead 7).res = .ok true ∧
      hasReg (embed_window csDead 7).state.registry 7 = true) :=
  ⟨rfl, by decide, c2_embed_ignores_validity csDead 7 rfl (by decide)⟩

/-! ## C9 -/

theorem hasReg_eq_false_not_mem (l : List RegEntry) (h : Int)
    (hl : hasReg l h = false) : h ∉ l.map (·.1) := by
  induction l with
  | nil => simp
  | cons e t ih =>
    simp only [hasReg, Bool.or_eq_false_iff] at hl
    simp only [List.map_cons, List.mem_cons]
    rintro (he | ht)
    · exact absurd (beq_iff_eq.mpr he.symm) (by simp [hl.1])
    · exact ih hl.2 ht

theorem step_regKeys_nodup (s : SysState) (op : Op)
    (hs : (regKeys s).Nodup) : (regKeys (step s op)).Nodup := by
  cases op with
  | embed h =>
    rcases embed_regKeys_cases s h with hc | ⟨hfresh, hc⟩
    · simpa only [step, hc] using hs
    · simp only [step, hc]
      rw [List.nodup_append]
      refine ⟨hs, List.nodup_singleton h, ?_⟩
      intro a ha hb
      simp only [List.mem_singleton] at hb
      subst hb
      exact hasReg_eq_false_not_mem s.registry a hfresh ha
  | release h =>
    simpa only [step, regKeys, release_state_registry] using hs
  | updateRect h x y w ht =>
    simpa only [step, regKeys, update_rect_state_registry] using hs
  | activate h =>
    simpa only [step, regKeys, activate_state_registry] using hs
  | close h =>
    simpa only [step, regKeys, close_state_registry] using hs
  | hideW h =>
    simpa only [step, regKeys, hide_window, registry_updateW] using hs
  | showW h =>
    simpa only [step, regKeys, show_window, registry_updateW] using hs

theorem runOps_regKeys_nodup (ops : List Op) (s : SysState)
    (hs : (regKeys s).Nodup) : (regKeys (runOps s ops)).Nodup := by
  induction ops generalizing s with
  | nil => exact hs
  | cons op t ih => exact ih (step s op) (step_regKeys_nodup s op hs)

/-- C9: starting from the empty registry, any sequence of the core
operations (embed, release, update-rect, activate, close, hide, show)
leaves the registry with pairwise-distinct handles — at most one
OriginalState entry per handle.  The only write is embed's guarded push
(lib.rs 153-158); release never removes (lib.rs 193-204) and the others
never touch the registry. -/
theorem c9_registry_at_most_one (s : SysState) (ops : List Op)
    (h0 : s.registry = []) : (regKeys (runOps s ops)).Nodup := by
  apply runOps_regKeys_nodup
  simp [regKeys, h0]

/-- C9 witness: a concrete operation sequence containing every core
operation, including a double embed, run from the empty registry. -/
theorem c9_witness :
    csW.registry = [] ∧
    (regKeys (runOps csW [Op.embed 5, Op.updateRect 5 0 40 1200 700,
      Op.activate 5, Op.hideW 5, Op.showW 5, Op.embed 5, Op.release 5,
      Op.embed 5, Op.close 5])).Nodup :=
  ⟨rfl, c9_registry_at_most_one csW _ rfl⟩

/-! ## C8 -/

/-- C8: `activate_window` never issues `AttachThreadInput` with equal
source and destination thread ids — the attach is guarded by
`id_current != id_target` (lib.rs 283) and the delayed detach only runs
when the attach happened (lib.rs 300-305).  In particular, when the
foreign window's UI thread equals the caller's thread, no attach-input
call (attach or detach) appears in the trace at all. -/
theorem c8_no_self_attach (s : SysState) (h : Int) :
    ((activate_window s h).events.all (fun e =>
      match e with
      | .attachInput a b _ => decide ¬(a = b)
      | _ => true) = true) ∧
    (tidOf s h = s.curTid →
      (activate_window s h).events.all (fun e =>
        match e with
        | .attachInput _ _ _ => false
        | _ => true) = true) := by
  constructor
  · simp only [activate_window]
    split
    · simp
    · by_cases ht : s.curTid = tidOf s h
      · simp only [ht, ne_eq, not_true_eq_false, if_false, ite_self]
        simp only [List.nil_append, List.all_append, List.all_cons, List.all_nil,
          Bool.and_true, Bool.true_and]
        split <;> simp
      · simp only [ne_eq, ht, not_false_eq_true, if_true]
        simp only [List.all_append, List.all_cons, List.all_nil, Bool.and_true,
          Bool.true_and]
        have hd : (decide ¬(s.curTid = tidOf s h)) = true := by
          simpa using ht
        refine ?_
        rw [hd]
        cases hatt : s.attachOk <;> split <;> simp [ht]
  · intro hteq
    simp only [activate_window]
    split
    · simp
    · simp only [hteq, ne_eq, not_true_eq_false, if_false, ite_self]
      simp only [List.nil_append, List.all_append, List.all_cons, List.all_nil,
        Bool.and_true, Bool.true_and]
      split <;> simp

/-- C8 witness: the host window's thread is the caller's thread, so its
activation issues no attach-input call. -/
theorem c8_witness :
    tidOf csW 1 = csW.curTid ∧
    (activate_window csW 1).events.all (fun e =>
      match e with
      | .attachInput _ _ _ => false
      | _ => true) = true :=
  ⟨rfl, (c8_no_self_attach csW 1).2 rfl⟩

/-! ## C7 -/

/-- C7: on a valid embedded handle, `update_window_rect` first derives the
current client rectangle (`ScreenToClient` of the window's screen top-left
against the parent, plus the current width/height, lib.rs 225-236); if each
of the four components differs from the request by at most one pixel it
returns success without any native move/resize call, and otherwise it
issues exactly one `SetWindowPos` with `SWP_NOZORDER | SWP_NOACTIVATE |
SWP_SHOWWINDOW` (lib.rs 242). -/
theorem c7_update_rect_tolerance (s : SysState) (h x y width height : Int)
    (w : Window) (p : Int)
    (hw : lookupW s h = some w) (hp : w.parent = some p) :
    (((w.rect.left - (clientOriginOf s p).x - x).natAbs ≤ 1 ∧
      (w.rect.top - (clientOriginOf s p).y - y).natAbs ≤ 1 ∧
      (w.rect.right - w.rect.left - width).natAbs ≤ 1 ∧
      (w.rect.bottom - w.rect.top - height).natAbs ≤ 1) →
        update_window_rect s h x y width height = ⟨.ok true, s, []⟩) ∧
    ((¬ ((w.rect.left - (clientOriginOf s p).x - x).natAbs ≤ 1 ∧
      (w.rect.top - (clientOriginOf s p).y - y).natAbs ≤ 1 ∧
      (w.rect.right - w.rect.left - width).natAbs ≤ 1 ∧
      (w.rect.bottom - w.rect.top - height).natAbs ≤ 1)) →
        (update_window_rect s h x y width height).res = .ok true ∧
        (update_window_rect s h x y width height).events =
          [.setPos h x y width height
            (SWP_NOZORDER ||| SWP_NOACTIVATE ||| SWP_SHOWWINDOW)]) := by
  have hvalid : isWindow s h = true := by simp [isWindow, hw]
  have hrect : rectOf s h = w.rect := by simp [rectOf, hw]
  have hpar : parentOf s h = some p := by simp [parentOf, hw, hp]
  constructor
  · intro htol
    simp only [update_window_rect, hvalid, Bool.true_eq_false, if_false, hpar,
      hrect]
    rw [if_pos]
    simp only [decide_eq_true_eq, Bool.and_eq_true]
    exact ⟨⟨⟨htol.1, htol.2.1⟩, htol.2.2.1⟩, htol.2.2.2⟩
  · intro hntol
    simp only [update_window_rect, hvalid, Bool.true_eq_false, if_false, hpar,
      hrect]
    rw [if_neg]
    · exact ⟨rfl, rfl⟩
    · simp only [decide_eq_true_eq, Bool.and_eq_true]
      intro hc
      exact hntol ⟨hc.1.1.1, hc.1.1.2, hc.1.2, hc.2⟩

/-- Concrete embedded state: handle 5 embedded into host 1. -/
def csEmb : SysState := (embed_window csW 5).state

/-- The foreign window's record inside `csEmb`. -/
def wNoteEmb : Window :=
  { pid := 7, tid := 3, className := "Notepad", style := 0x54000000,
    exstyle := 0x100, rect := ⟨50, 60, 900, 720⟩, parent := some 1,
    visible := true, clientOff := ⟨8, 31⟩ }

/-- C7 witness: a request within one pixel of the current client rect is a
no-op; a request far from it issues the single move/resize call. -/
theorem c7_witness :
    lookupW csEmb 5 = some wNoteEmb ∧
    update_window_rect csEmb 5 50 60 850 660 = ⟨.ok true, csEmb, []⟩ ∧
    (update_window_rect csEmb 5 0 40 1200 700).events =
      [.setPos 5 0 40 1200 700
        (SWP_NOZORDER ||| SWP_NOACTIVATE ||| SWP_SHOWWINDOW)] := by
  refine ⟨rfl, ?_, ?_⟩
  · exact (c7_update_rect_tolerance csEmb 5 50 60 850 660 _ 1 rfl rfl).1
      (by refine ⟨?_, ?_, ?_, ?_⟩ <;> decide)
  · exact ((c7_update_rect_tolerance csEmb 5 0 40 1200 700 _ 1 rfl rfl).2
      (by intro hc; revert hc; decide)).2

/-! ## C10 -/

theorem childKeys_updW (l : List (Int × Window)) (k : Int) (f : Window → Window)
    (hf : ∀ w, (f w).parent = w.parent) (x : Int) :
    childKeys (updW l k f) x = childKeys l x := by
  induction l with
  | nil => rfl
  | cons p t ih =>
    simp only [updW, childKeys]
    by_cases hpk : p.1 = k
    · simp [hpk, hf, ih]
    · simp [hpk, ih]

theorem updW_length (l : List (Int × Window)) (k : Int) (f : Window → Window) :
    (updW l k f).length = l.length := by
  induction l with
  | nil => rfl
  | cons p t ih => simp [updW, ih]

theorem childrenOf_updateW (s : SysState) (k : Int) (f : Window → Window)
    (hf : ∀ w, (f w).parent = w.parent) (x : Int) :
    childrenOf (updateW s k f) x = childrenOf s x :=
  childKeys_updW s.windows k f hf x

theorem descendantsAux_updateW (s : SysState) (k : Int) (f : Window → Window)
    (hf : ∀ w, (f w).parent = w.parent) :
    ∀ n x, descendantsAux (updateW s k f) n x = descendantsAux s n x := by
  intro n
  induction n with
  | zero => intro x; rfl
  | succ m ih =>
    intro x
    simp only [descendantsAux, childrenOf_updateW s k f hf, ih]

theorem descendants_updateW (s : SysState) (k : Int) (f : Window → Window)
    (hf : ∀ w, (f w).parent = w.parent) (h : Int) :
    descendants (updateW s k f) h = descendants s h := by
  unfold descendants
  rw [show (updateW s k f).windows.length = s.windows.length from
    updW_length s.windows k f]
  exact descendantsAux_updateW s k f hf _ h

theorem classOf_updateW (s : SysState) (k : Int) (f : Window → Window)
    (hfc : ∀ w, (f w).className = w.className) (x : Int) :
    classOf (updateW s k f) x = classOf s x := by
  by_cases hxk : x = k
  · subst hxk
    cases hl : lookupW s x with
    | none => simp [classOf, lookupW_updateW, hl]
    | some w => simp [classOf, lookupW_updateW, hl, hfc]
  · simp [classOf, lookupW_updateW, hxk]

theorem find_render_updateW (s : SysState) (k : Int) (f : Window → Window)
    (hf : ∀ w, (f w).parent = w.parent)
    (hfc : ∀ w, (f w).className = w.className) (h : Int) :
    find_render_window (updateW s k f) h = find_render_window s h := by
  unfold find_render_window
  rw [descendants_updateW s k f hf]
  have hpred : (fun c => classOf (updateW s k f) c == "Chrome_RenderWidgetHostHWND")
      = (fun c => classOf s c == "Chrome_RenderWidgetHostHWND") :=
    funext (fun c => by rw [classOf_updateW s k f hfc c])
  rw [hpred]

theorem find_render_setPosS (s : SysState) (k x y w ht : Int) (fl : Nat) (h : Int) :
    find_render_window (setPosS s k x y w ht fl) h = find_render_window s h := by
  unfold setPosS
  apply find_render_updateW
  · intro w
    rfl
  · intro w
    rfl

/-- C10: on a valid handle, `activate_window` searches the handle's
descendants for a window of class `"Chrome_RenderWidgetHostHWND"`
(lib.rs 251-266); when one is found, `SetActiveWindow`/`SetFocus` go to
that descendant and no `SetFocus` targets the top-level handle; when none
exists, they go to the top-level handle itself (lib.rs 291-297). -/
theorem c10_focus_target (s : SysState) (h : Int)
    (hv : isWindow s h = true) (hnd : h ∉ descendants s h) :
    (∀ r, find_render_window s h = some r →
      r ∈ descendants s h ∧
      classOf s r = "Chrome_RenderWidgetHostHWND" ∧
      Event.setActive r ∈ (activate_window s h).events ∧
      Event.setFocus r ∈ (activate_window s h).events ∧
      Event.setFocus h ∉ (activate_window s h).events ∧
      Event.setActive h ∉ (activate_window s h).events) ∧
    (find_render_window s h = none →
      (∀ d ∈ descendants s h, classOf s d ≠ "Chrome_RenderWidgetHostHWND") ∧
      Event.setActive h ∈ (activate_window s h).events ∧
      Event.setFocus h ∈ (activate_window s h).events) := by
  constructor
  · intro r hr
    have hmem : r ∈ descendants s h := by
      have := List.mem_of_find?_eq_some (by
        simpa only [find_render_window] using hr)
      exact this
    have hcls : classOf s r = "Chrome_RenderWidgetHostHWND" := by
      have := List.find?_some (by
        simpa only [find_render_window] using hr)
      exact beq_iff_eq.mp this
    have hrh : r ≠ h := fun hrh => hnd (hrh ▸ hmem)
    refine ⟨hmem, hcls, ?_, ?_, ?_, ?_⟩
    · simp only [activate_window, hv, Bool.true_eq_false, if_false,
        find_render_setPosS, hr]
      exact List.mem_append.mpr (Or.inl (List.mem_append.mpr
        (Or.inr (List.mem_cons_self _ _))))
    · simp only [activate_window, hv, Bool.true_eq_false, if_false,
        find_render_setPosS, hr]
      exact List.mem_append.mpr (Or.inl (List.mem_append.mpr
        (Or.inr (List.mem_cons_of_mem _ (List.mem_cons_self _ _)))))
    · simp only [activate_window, hv, Bool.true_eq_false, if_false,
        find_render_setPosS, hr]
      by_cases htid : s.curTid = tidOf s h
      · simp [htid, Ne.symm hrh]
      · cases hatt : s.attachOk <;> simp [htid, hatt, Ne.symm hrh]
    · simp only [activate_window, hv, Bool.true_eq_false, if_false,
        find_render_setPosS, hr]
      by_cases htid : s.curTid = tidOf s h
      · simp [htid, Ne.symm hrh]
      · cases hatt : s.attachOk <;> simp [htid, hatt, Ne.symm hrh]
  · intro hr
    have hall : ∀ d ∈ descendants s h, classOf s d ≠ "Chrome_RenderWidgetHostHWND" := by
      intro d hd
      have := List.find?_eq_none.mp (by
        simpa only [find_render_window] using hr) d hd
      simpa using this
    refine ⟨hall, ?_, ?_⟩
    · simp only [activate_window, hv, Bool.true_eq_false, if_false,
        find_render_setPosS, hr]
      exact List.mem_append.mpr (Or.inl (List.mem_append.mpr
        (Or.inr (List.mem_cons_self _ _))))
    · simp only [activate_window, hv, Bool.true_eq_false, if_false,
        find_render_setPosS, hr]
      exact List.mem_append.mpr (Or.inl (List.mem_append.mpr
        (Or.inr (List.mem_cons_of_mem _ (List.mem_cons_self _ _)))))

/-! ## C3 -/

theorem updW_congr (l : List (Int × Window)) (k : Int) (f g : Window → Window)
    (hfg : ∀ w, f w = g w) : updW l k f = updW l k g := by
  induction l with
  | nil => rfl
  | cons p t ih => simp only [updW, hfg, ih]

/-- `SetWindowPos` with `SWP_NOMOVE | SWP_NOSIZE | SWP_SHOWWINDOW` only
makes the window visible. -/
theorem setPosS_nomove (s : SysState) (k : Int) :
    setPosS s k 0 0 0 0 nomoveFlags
      = updateW s k (fun w => { w with visible := true }) := by
  unfold setPosS updateW
  congr 1
  apply updW_congr
  intro w
  simp [nomoveFlags, SWP_NOMOVE, SWP_NOSIZE, SWP_SHOWWINDOW]

/-- State shape of `activate_window`. -/
theorem activate_state_eq (s : SysState) (h : Int) :
    (activate_window s h).state =
      if isWindow s h = false then s else setPosS s h 0 0 0 0 nomoveFlags := by
  simp only [activate_window]
  split
  · rename_i hc
    simp [hc]
  · rename_i hc
    simp [hc]

theorem findReg_append (l : List RegEntry) (h : Int) (st ex : Nat) (rc : Rect)
    (hl : hasReg l h = false) :
    findReg (l ++ [(h, st, ex, rc)]) h = some (st, ex, rc) := by
  induction l with
  | nil => simp [findReg]
  | cons e t ih =>
    simp only [hasReg, Bool.or_eq_false_iff] at hl
    have he : e.1 ≠ h := by
      intro hcontra
      simp [hcontra] at hl
    simp [findReg, he, ih hl.2]

/-- Window record stored for `h` after a fresh successful embed: decorations
stripped, child and visible bits set, reparented under the host frame,
shown. -/
theorem embed_lookup_at (s : SysState) (h : Int) (w : Window)
    (hw : lookupW s h = some w)
    (hself : is_self_window s h = false)
    (hcls : is_dangerous_window w.className = false)
    (hh : h ≠ s.hostFrame) :
    lookupW (embed_window s h).state h =
      some ({ w with
                style := newStyle w.style,
                parent := some s.hostFrame,
                visible := true }) := by
  have hclsOf : classOf s h = w.className := by simp [classOf, hw]
  simp only [embed_window, hself, Bool.false_eq_true, if_false, hclsOf, hcls]
  rw [setPosS_nomove, activate_state_eq]
  have hbase : lookupW (embInsert (embClip s).1 h) h = some w := by
    rw [lookupW_embInsert, lookupW_embClip s h hh, hw]
  have hsty : styleOf (embClip s).1 h = w.style := by
    simp only [styleOf, lookupW_embClip s h hh, hw]
  split
  · rename_i hdead
    rw [isWindow] at hdead
    simp [lookupW_updateW, hbase] at hdead
  · rw [setPosS_nomove]
    simp [lookupW_updateW, hbase, hsty]

/-- Registry appended with the state captured at embed time. -/
theorem embed_registry_precise (s : SysState) (h : Int) (w : Window)
    (hw : lookupW s h = some w)
    (hself : is_self_window s h = false)
    (hcls : is_dangerous_window w.className = false)
    (hreg : hasReg s.registry h = false)
    (hh : h ≠ s.hostFrame) :
    (embed_window s h).state.registry
      = s.registry ++ [(h, w.style, w.exstyle, w.rect)] := by
  have hclsOf : classOf s h = w.className := by simp [classOf, hw]
  simp only [embed_window, hself, Bool.false_eq_true, if_false, hclsOf, hcls]
  rw [activate_state_registry]
  simp only [registry_setPosS, registry_updateW, embInsert_registry,
    embClip_registry]
  rw [if_neg (by simp [hreg])]
  simp only [styleOf, exstyleOf, rectOf, lookupW_embClip s h hh, hw]

/-- C3: embedding an eligible, unregistered handle and then releasing it
restores the style word, the extended style word and the screen rectangle
bit-exact to the values captured at embed time, which are exactly the saved
OriginalState record (lib.rs 148-156 capture, 193-199 restore). -/
theorem c3_embed_release_roundtrip (s : SysState) (h : Int) (w : Window)
    (hw : lookupW s h = some w)
    (hself : is_self_window s h = false)
    (hcls : is_dangerous_window w.className = false)
    (hreg : hasReg s.registry h = false)
    (hh : h ≠ s.hostFrame) :
    findReg (embed_window s h).state.registry h
      = some (w.style, w.exstyle, w.rect) ∧
    styleOf (release_window (embed_window s h).state h).state h = w.style ∧
    exstyleOf (release_window (embed_window s h).state h).state h = w.exstyle ∧
    rectOf (release_window (embed_window s h).state h).state h = w.rect := by
  have hregeq := embed_registry_precise s h w hw hself hcls hreg hh
  have hfind : findReg (embed_window s h).state.registry h
      = some (w.style, w.exstyle, w.rect) := by
    rw [hregeq]
    exact findReg_append s.registry h _ _ _ hreg
  have hlook := embed_lookup_at s h w hw hself hcls hh
  refine ⟨hfind, ?_⟩
  simp only [release_window, registry_updateW, hfind]
  refine ⟨?_, ?_, ?_⟩
  · simp [styleOf, lookupW_updateW, setPosS, hlook]
  · simp [exstyleOf, lookupW_updateW, setPosS, hlook]
  · simp [rectOf, lookupW_updateW, setPosS, hlook]

/-- C3 witness: Notepad-style window 5 with style 0x14CF0000, exstyle
0x100, rect (50, 60, 900, 720) is restored bit-exact by embed-then-release. -/
theorem c3_witness :
    findReg (embed_window csW 5).state.registry 5
      = some (0x14CF0000, 0x100, ⟨50, 60, 900, 720⟩) ∧
    styleOf (release_window (embed_window csW 5).state 5).state 5 = 0x14CF0000 ∧
    exstyleOf (release_window (embed_window csW 5).state 5).state 5 = 0x100 ∧
    rectOf (release_window (embed_window csW 5).state 5).state 5
      = ⟨50, 60, 900, 720⟩ :=
  c3_embed_release_roundtrip csW 5 wNote rfl rfl (by decide) rfl (by decide)

/-! ## C4 -/

theorem lor_land_self (x c : Nat) : (x ||| c) &&& c = c := by
  apply Nat.eq_of_testBit_eq
  intro i
  simp only [Nat.testBit_land, Nat.testBit_lor]
  cases x.testBit i <;> cases c.testBit i <;> rfl

/-- Stripping decorations and adding child+visible is idempotent. -/
theorem newStyle_idem (x : Nat) : newStyle (newStyle x) = newStyle x := by
  unfold newStyle
  apply Nat.eq_of_testBit_eq
  intro i
  simp only [Nat.testBit_lor, Nat.testBit_land]
  generalize x.testBit i = a
  generalize (0xFFFFFFFF ^^^ stripMask).testBit i = m
  generalize Nat.testBit WS_CHILD i = c
  generalize Nat.testBit WS_VISIBLE i = v
  cases a <;> cases m <;> cases c <;> cases v <;> rfl

theorem embInsert_noop (s : SysState) (h : Int)
    (hr : hasReg s.registry h = true) : embInsert s h = s := by
  unfold embInsert
  rw [if_pos hr]

theorem embClip_noop (s : SysState)
    (hc : styleOf s s.hostFrame &&& WS_CLIPCHILDREN ≠ 0) :
    (embClip s).1 = s ∧ (embClip s).2 = [] := by
  simp only [embClip]
  rw [if_neg hc]
  exact ⟨rfl, rfl⟩

theorem styleOf_updateW_at (s : SysState) (k : Int) (f : Window → Window) :
    styleOf (updateW s k f) k =
      match lookupW s k with
      | some w => (f w).style
      | none => 0 := by
  simp only [styleOf, lookupW_updateW, if_pos]
  cases lookupW s k <;> rfl

theorem styleOf_updateW_ne (s : SysState) (k : Int) (f : Window → Window)
    (h2 : Int) (hne : h2 ≠ k) :
    styleOf (updateW s k f) h2 = styleOf s h2 := by
  simp [styleOf, lookupW_updateW, hne]

theorem isWindow_updateW (s : SysState) (k : Int) (f : Window → Window)
    (h2 : Int) : isWindow (updateW s k f) h2 = isWindow s h2 := by
  simp only [isWindow, lookupW_updateW]
  split
  · rename_i heq
    subst heq
    cases hl : lookupW s h2 <;> simp [hl]
  · rfl

@[simp] theorem hostFrame_setPosS (s : SysState) (k x y w ht : Int) (fl : Nat) :
    (setPosS s k x y w ht fl).hostFrame = s.hostFrame := rfl

@[simp] theorem selfPid_setPosS (s : SysState) (k x y w ht : Int) (fl : Nat) :
    (setPosS s k x y w ht fl).selfPid = s.selfPid := rfl

theorem activate_state_hostFrame (s : SysState) (h : Int) :
    (activate_window s h).state.hostFrame = s.hostFrame := by
  rw [activate_state_eq]
  split <;> rfl

theorem activate_state_selfPid (s : SysState) (h : Int) :
    (activate_window s h).state.selfPid = s.selfPid := by
  rw [activate_state_eq]
  split <;> rfl

theorem embed_state_hostFrame (s : SysState) (h : Int) :
    (embed_window s h).state.hostFrame = s.hostFrame := by
  simp only [embed_window]
  split
  · rfl
  · split
    · rfl
    · rw [activate_state_hostFrame]
      simp

theorem embed_state_selfPid (s : SysState) (h : Int) :
    (embed_window s h).state.selfPid = s.selfPid := by
  simp only [embed_window]
  split
  · rfl
  · split
    · rfl
    · rw [activate_state_selfPid]
      simp

theorem embClip_host_clipbit (s : SysState) (hw0 : Window)
    (hhostw : lookupW s s.hostFrame = some hw0) :
    styleOf (embClip s).1 s.hostFrame &&& WS_CLIPCHILDREN ≠ 0 := by
  simp only [embClip]
  split
  · rw [styleOf_updateW_at, hhostw]
    show (styleOf s s.hostFrame ||| WS_CLIPCHILDREN) &&& WS_CLIPCHILDREN ≠ 0
    rw [lor_land_self]
    decide
  · rename_i hmiss
    exact hmiss

/-- The host frame carries the clip-children bit after any successful
embed. -/
theorem embed_host_clipbit (s : SysState) (h : Int) (hw0 : Window)
    (hhostw : lookupW s s.hostFrame = some hw0)
    (hself : is_self_window s h = false)
    (hclsOf : is_dangerous_window (classOf s h) = false)
    (hh : h ≠ s.hostFrame) :
    styleOf (embed_window s h).state s.hostFrame &&& WS_CLIPCHILDREN ≠ 0 := by
  have hkey : s.hostFrame ≠ h := Ne.symm hh
  simp only [embed_window, hself, Bool.false_eq_true, if_false, hclsOf]
  rw [setPosS_nomove, activate_state_eq]
  split
  · simp only [styleOf_updateW_ne, hkey, ne_eq, not_false_eq_true]
    simp only [styleOf, lookupW_embInsert]
    exact embClip_host_clipbit s hw0 hhostw
  · rw [setPosS_nomove]
    simp only [styleOf_updateW_ne, hkey, ne_eq, not_false_eq_true]
    simp only [styleOf, lookupW_embInsert]
    exact embClip_host_clipbit s hw0 hhostw

/-- Re-embedding an already-embedded (registered, stripped, reparented,
visible) handle executes the restyle/reparent/raise steps again but changes
nothing: registry untouched, every handle's window record unchanged, result
Ok(true). -/
theorem embed_idem_lookup (t : SysState) (h : Int) (w1 : Window)
    (hlook : lookupW t h = some w1)
    (hstyle : w1.style = newStyle w1.style)
    (hparent : w1.parent = some t.hostFrame)
    (hvis : w1.visible = true)
    (hselft : is_self_window t h = false)
    (hclst : is_dangerous_window w1.className = false)
    (hhost : styleOf t t.hostFrame &&& WS_CLIPCHILDREN ≠ 0)
    (hregt : hasReg t.registry h = true) :
    (embed_window t h).state.registry = t.registry ∧
    (∀ h2, lookupW (embed_window t h).state h2 = lookupW t h2) ∧
    (embed_window t h).res = .ok true ∧
    Event.setStyle h w1.style ∈ (embed_window t h).events ∧
    Event.setParentE h (some t.hostFrame) ∈ (embed_window t h).events ∧
    Event.setPos h 0 0 0 0 nomoveFlags ∈ (embed_window t h).events := by
  have hclsOf : classOf t h = w1.className := by simp [classOf, hlook]
  have hsty : styleOf t h = w1.style := by simp [styleOf, hlook]
  obtain ⟨hclip1, hclip2⟩ := embClip_noop t hhost
  simp only [embed_window, hselft, Bool.false_eq_true, if_false, hclsOf, hclst,
    hclip1, hclip2, embInsert_noop t h hregt, hsty, ← hstyle]
  rw [setPosS_nomove, activate_state_eq]
  rw [if_neg (by simp [isWindow, lookupW_updateW, hlook])]
  rw [setPosS_nomove]
  obtain ⟨wp, wt, wc, ws, we, wr, wpar, wvis, woff⟩ := w1
  simp only at hparent hvis
  subst hparent
  subst hvis
  refine ⟨?_, ?_, ?_, ?_, ?_, ?_⟩
  · rfl
  · intro h2
    by_cases hh2 : h2 = h
    · subst hh2
      simp [lookupW_updateW, hlook]
    · simp [lookupW_updateW, hh2]
  · trivial
  · exact List.mem_append.mpr (Or.inl (List.mem_append.mpr
      (Or.inr (List.mem_cons_self _ _))))
  · exact List.mem_append.mpr (Or.inl (List.mem_append.mpr
      (Or.inr (List.mem_cons_of_mem _ (List.mem_cons_self _ _)))))
  · exact List.mem_append.mpr (Or.inl (List.mem_append.mpr
      (Or.inr (List.mem_cons_of_mem _ (List.mem_cons_of_mem _
        (List.mem_cons_self _ _))))))

/-- C4: the claim says a second `embed_window` on an already-registered
handle skips the restyle/reparent/raise/activate steps.  The source guards
only the registry push (lib.rs 155): with handle 5 already registered in
`csReg`, `embed_window` still issues a `SetParent` call. -/
theorem c4_counterexample :
    hasReg csReg.registry 5 = true ∧
    ((embed_window csReg 5).events.any (fun e =>
      match e with
      | .setParentE _ _ => true
      | _ => false)) = true :=
  ⟨rfl, rfl⟩

/-- C4 (amended): embedding an eligible fresh handle twice leaves exactly
one registry entry (the second insert is skipped) and the second embed is
observationally a no-op — same registry, same record for every handle,
result Ok(true) — but it does not skip steps 4-6: the restyle, reparent
and raise calls are all re-issued. -/
theorem c4_embed_idempotent (s : SysState) (h : Int) (w hw0 : Window)
    (hw : lookupW s h = some w)
    (hhostw : lookupW s s.hostFrame = some hw0)
    (hself : is_self_window s h = false)
    (hcls : is_dangerous_window w.className = false)
    (hreg : hasReg s.registry h = false)
    (hh : h ≠ s.hostFrame) :
    (regKeys (embed_window s h).state).count h = 1 ∧
    (embed_window (embed_window s h).state h).state.registry
      = (embed_window s h).state.registry ∧
    (∀ h2, lookupW (embed_window (embed_window s h).state h).state h2
      = lookupW (embed_window s h).state h2) ∧
    (embed_window (embed_window s h).state h).res = .ok true ∧
    Event.setStyle h (newStyle w.style)
      ∈ (embed_window (embed_window s h).state h).events ∧
    Event.setParentE h (some s.hostFrame)
      ∈ (embed_window (embed_window s h).state h).events ∧
    Event.setPos h 0 0 0 0 nomoveFlags
      ∈ (embed_window (embed_window s h).state h).events := by
  have hclsOf : classOf s h = w.className := by simp [classOf, hw]
  have hcount : (regKeys (embed_window s h).state).count h = 1 := by
    rw [regKeys, embed_registry_precise s h w hw hself hcls hreg hh]
    rw [List.map_append, List.count_append]
    rw [List.count_eq_zero.mpr (hasReg_eq_false_not_mem s.registry h hreg)]
    simp
  have hlook := embed_lookup_at s h w hw hself hcls hh
  have hidem := embed_idem_lookup (embed_window s h).state h
    ({ w with
        style := newStyle w.style,
        parent := some s.hostFrame,
        visible := true })
    hlook
    (by simp [newStyle_idem])
    (by simp [embed_state_hostFrame])
    rfl
    (by
      rw [is_self_window, embed_state_selfPid]
      rw [is_self_window] at hself
      simp only [pidOf, hlook]
      simpa [pidOf, hw] using hself)
    (by simpa using hcls)
    (by
      rw [embed_state_hostFrame]
      exact embed_host_clipbit s h hw0 hhostw hself (hclsOf ▸ hcls) hh)
    (embed_hasReg_after s h hself (hclsOf ▸ hcls))
  refine ⟨hcount, hidem.1, hidem.2.1, hidem.2.2.1, ?_, ?_, hidem.2.2.2.2.2⟩
  · simpa using hidem.2.2.2.1
  · have := hidem.2.2.2.2.1
    rwa [embed_state_hostFrame] at this

/-- C4 witness: double-embedding handle 5 from `csW`. -/
theorem c4_witness :
    (regKeys (embed_window csW 5).state).count 5 = 1 ∧
    (embed_window (embed_window csW 5).state 5).state.registry
      = (embed_window csW 5).state.registry ∧
    (∀ h2, lookupW (embed_window (embed_window csW 5).state 5).state h2
      = lookupW (embed_window csW 5).state h2) ∧
    (embed_window (embed_window csW 5).state 5).res = .ok true ∧
    Event.setStyle 5 (newStyle wNote.style)
      ∈ (embed_window (embed_window csW 5).state 5).events ∧
    Event.setParentE 5 (some csW.hostFrame)
      ∈ (embed_window (embed_window csW 5).state 5).events ∧
    Event.setPos 5 0 0 0 0 nomoveFlags
      ∈ (embed_window (embed_window csW 5).state 5).events :=
  c4_embed_idempotent csW 5 wNote wHost rfl rfl rfl (by decide) rfl (by decide)

/-- C10 witness: in `csChrome` the render child 9 exists under 5, and the
focus calls target 9, not 5. -/
theorem c10_witness :
    find_render_window csChrome 5 = some 9 ∧
    (9 ∈ descendants csChrome 5 ∧
      classOf csChrome 9 = "Chrome_RenderWidgetHostHWND" ∧
      Event.setActive 9 ∈ (activate_window csChrome 5).events ∧
      Event.setFocus 9 ∈ (activate_window csChrome 5).events ∧
      Event.setFocus 5 ∉ (activate_window csChrome 5).events ∧
      Event.setActive 5 ∉ (activate_window csChrome 5).events) :=
  ⟨rfl, (c10_focus_target csChrome 5 rfl (by decide)).1 9 rfl⟩

end WindowHub
